import Mathlib

/-!
Verification development for the distribution library in
`src/prometheus/distributions.pyx`.

The distributions store their parameters as real numbers; the C-double
expressions of the source are embedded over `ℝ`, extended with the IEEE
special values (infinities and NaN) where the source calls the unguarded
C `log`/`exp`/`pow` on inputs that can leave their domains.  Fallible
Python paths (raised exceptions) are embedded with `Except`.
-/

noncomputable section

/-- A C double, abstracted: a finite real, an infinity, or NaN. -/
inductive FP where
  | fin : ℝ → FP
  | pinf : FP
  | ninf : FP
  | nan : FP

def FP.isNan : FP → Bool
  | .nan => true
  | _ => false

def FP.neg : FP → FP
  | .fin x => .fin (-x)
  | .pinf => .ninf
  | .ninf => .pinf
  | .nan => .nan

def FP.add : FP → FP → FP
  | .nan, _ => .nan
  | _, .nan => .nan
  | .fin x, .fin y => .fin (x + y)
  | .fin _, .pinf => .pinf
  | .pinf, .fin _ => .pinf
  | .fin _, .ninf => .ninf
  | .ninf, .fin _ => .ninf
  | .pinf, .pinf => .pinf
  | .ninf, .ninf => .ninf
  | .pinf, .ninf => .nan
  | .ninf, .pinf => .nan

def FP.sub (a b : FP) : FP := a.add b.neg

def FP.mul : FP → FP → FP
  | .nan, _ => .nan
  | _, .nan => .nan
  | .fin x, .fin y => .fin (x * y)
  | .fin x, .pinf => if 0 < x then .pinf else if x < 0 then .ninf else .nan
  | .pinf, .fin y => if 0 < y then .pinf else if y < 0 then .ninf else .nan
  | .fin x, .ninf => if 0 < x then .ninf else if x < 0 then .pinf else .nan
  | .ninf, .fin y => if 0 < y then .ninf else if y < 0 then .pinf else .nan
  | .pinf, .pinf => .pinf
  | .ninf, .ninf => .pinf
  | .pinf, .ninf => .ninf
  | .ninf, .pinf => .ninf

def FP.div : FP → FP → FP
  | .nan, _ => .nan
  | _, .nan => .nan
  | .fin x, .fin y =>
      if y ≠ 0 then .fin (x / y)
      else if 0 < x then .pinf else if x < 0 then .ninf else .nan
  | .fin _, .pinf => .fin 0
  | .fin _, .ninf => .fin 0
  | .pinf, .fin y => if 0 ≤ y then .pinf else .ninf
  | .ninf, .fin y => if 0 ≤ y then .ninf else .pinf
  | .pinf, _ => .nan
  | .ninf, _ => .nan

def FP.sq (a : FP) : FP := a.mul a

/-- Modelled from the spec: the `_log` helper lives in the `utils` module,
which is not part of the sources here.  Per the spec, `log_probability`
"returns negative-infinity for any input outside the variant's support"
and is "never NaN for well-formed parameters": `_log` guards the C `log`,
returning the logarithm for positive input and negative infinity
otherwise. -/
def uLog (x : ℝ) : FP := if 0 < x then .fin (Real.log x) else .ninf

/-- `_log` applied to a C double that may itself be non-finite: the guard
`value > 0` is false for NaN and for negative infinity. -/
def uLogF : FP → FP
  | .fin x => uLog x
  | .pinf => .pinf
  | .ninf => .ninf
  | .nan => .ninf

/-- The unguarded C `log` on a real argument: NaN for negative input,
negative infinity at zero. -/
def clogR (x : ℝ) : FP :=
  if 0 < x then .fin (Real.log x) else if x = 0 then .ninf else .nan

/-- The C `exp` on a C double. -/
def cexpF : FP → FP
  | .fin x => .fin (Real.exp x)
  | .pinf => .pinf
  | .ninf => .fin 0
  | .nan => .nan

/-- `numpy.sum` over a list of C doubles. -/
def fpSum (l : List FP) : FP := l.foldl FP.add (.fin 0)

/-- The source's `SQRT_2_PI` constant (`DEF SQRT_2_PI = 2.50662827463`). -/
def SQRT2PI : ℝ := 2.50662827463

/-- `numpy.dot`: the weighted sum of a list of values. -/
def dot (xs ws : List ℝ) : ℝ := (List.zipWith (· * ·) xs ws).sum

/-- `numpy.average(items, weights=weights)`: the weighted mean. -/
def wmean (xs ws : List ℝ) : ℝ := dot xs ws / ws.sum

/-- `numpy.dot(items**2 - mean**2, weights) / weights.sum()`: the weighted
variance via the E[x²]-E[x]² identity, exactly as the source computes it. -/
def wvar (xs ws : List ℝ) : ℝ :=
  dot (xs.map fun x => x ^ 2 - wmean xs ws ^ 2) ws / ws.sum

/-- `len(weights[weights != 0])`: the number of nonzero weights. -/
def countNonzero (ws : List ℝ) : ℕ :=
  (ws.map fun w => if w = 0 then (0 : ℕ) else 1).sum

/-- The Python exceptions that the embedded code can raise. -/
inductive PyErr where
  | notImplementedError : PyErr
  | valueError : PyErr
  | indexError : PyErr
  | zeroDivisionError : PyErr
deriving DecidableEq

open scoped Classical in
/-- Python `**` on float operands (the extreme-value density computes on
untyped locals unpacked from the Python parameter list, so its `**` is
Python pow, not the C one): a positive base gives the real power; a zero
base raises `ZeroDivisionError` for a negative exponent; a negative base
gives the (integer-exponent) real power when the exponent is integral,
and otherwise raises — `ValueError` on Python 2, while Python 3 produces
a complex value that then fails the coercion to the `cdef double` return
type with `TypeError`; both are modelled as `valueError`. -/
def pyPowR (b e : ℝ) : Except PyErr ℝ :=
  if 0 < b then .ok (b ^ e)
  else if b = 0 then
    (if 0 < e then .ok 0 else if e = 0 then .ok 1 else .error .zeroDivisionError)
  else if h : ∃ n : ℤ, (n : ℝ) = e then .ok (b ^ h.choose) else .error .valueError

/-- `dict.get(key, 0)` on an insertion-ordered dictionary of doubles. -/
def dictGetF [DecidableEq α] : List (α × FP) → α → FP
  | [], _ => .fin 0
  | p :: rest, k => if p.1 = k then p.2 else dictGetF rest k

/-- `dict[key] += value`, inserting the key at the end when absent (the
`try/except KeyError` pattern of the source). -/
def dictAddF [DecidableEq α] : List (α × FP) → α → FP → List (α × FP)
  | [], k, v => [(k, v)]
  | p :: rest, k, v => if p.1 = k then (p.1, p.2.add v) :: rest else p :: dictAddF rest k v

/-- `UniformDistribution`: `parameters` is the pair `[start, end]`,
`summaries` the recorded per-batch `[min, max]` pairs. -/
structure UniformDistribution where
  frozen : Bool
  parameters : ℝ × ℝ
  summaries : List (ℝ × ℝ)

/-- `UniformDistribution.__init__(start, end, frozen=False)`. -/
def UniformDistribution.init (start stop : ℝ) (frozen : Bool) : UniformDistribution :=
  ⟨frozen, (start, stop), []⟩

/-- `Distribution.copy`: `self.__class__(*self.parameters)`; the `frozen`
argument is omitted, so it takes the constructor default `False`. -/
def UniformDistribution.copy (s : UniformDistribution) : UniformDistribution :=
  UniformDistribution.init s.parameters.1 s.parameters.2 false

/-- `UniformDistribution._log_probability`. -/
def UniformDistribution.log_probability (s : UniformDistribution) (symbol : ℝ) : FP :=
  if symbol = s.parameters.1 ∧ symbol = s.parameters.2 then .fin 0
  else if s.parameters.1 ≤ symbol ∧ symbol ≤ s.parameters.2 then
    uLog (1 / (s.parameters.2 - s.parameters.1))
  else .ninf

/-- The minimum of a nonempty list (`numpy.min`); `0` for the empty list,
which the callers below guard against. -/
def listMin : List ℝ → ℝ
  | [] => 0
  | x :: xs => xs.foldl min x

/-- The maximum of a nonempty list (`numpy.max`); `0` for the empty list,
which the callers below guard against. -/
def listMax : List ℝ → ℝ
  | [] => 0
  | x :: xs => xs.foldl max x

/-- `UniformDistribution.from_sample(items, weights=None, inertia=0.0)`:
items of zero weight are dropped, an empty remainder is a no-op, and the
new parameters are the inertia-blend of the old with min/max. -/
def UniformDistribution.from_sample (s : UniformDistribution) (items : List ℝ)
    (weights : Option (List ℝ)) (inertia : ℝ) : UniformDistribution :=
  if s.frozen = true then s else
  let items' := match weights with
    | some ws => (List.zip items ws).filterMap fun p => if 0 < p.2 then some p.1 else none
    | none => items
  if items'.length = 0 then s else
  { s with parameters := (s.parameters.1 * inertia + listMin items' * (1 - inertia),
                          s.parameters.2 * inertia + listMax items' * (1 - inertia)) }

/-- `UniformDistribution.summarize(items, weights=None)`: drop zero-weight
items, ignore an empty remainder, otherwise record `[min, max]`. -/
def UniformDistribution.summarize (s : UniformDistribution) (items : List ℝ)
    (weights : Option (List ℝ)) : UniformDistribution :=
  let items' := match weights with
    | some ws => (List.zip items ws).filterMap fun p => if 0 < p.2 then some p.1 else none
    | none => items
  if items'.length = 0 then s else
  { s with summaries := s.summaries ++ [(listMin items', listMax items')] }

/-- `UniformDistribution.from_summaries(inertia=0.0)`.  With no stored
summaries the source indexes `summaries[:,0]` on an empty array, raising
`IndexError`; the frozen test precedes it. -/
def UniformDistribution.from_summaries (s : UniformDistribution) (inertia : ℝ) :
    Except PyErr UniformDistribution :=
  if s.frozen = true then .ok s else
  if s.summaries.length = 0 then .error .indexError else
  .ok { s with
        parameters := (s.parameters.1 * inertia + listMin (s.summaries.map Prod.fst) * (1 - inertia),
                       s.parameters.2 * inertia + listMax (s.summaries.map Prod.snd) * (1 - inertia)),
        summaries := [] }

/-- `NormalDistribution`: `parameters` is `[mean, std]`, `summaries` the
list of `[mean, variance, weight-sum]` triples. -/
structure NormalDistribution where
  frozen : Bool
  parameters : ℝ × ℝ
  summaries : List (ℝ × ℝ × ℝ)

/-- `NormalDistribution.__init__(mean, std, frozen=False)`. -/
def NormalDistribution.init (mean std : ℝ) (frozen : Bool) : NormalDistribution :=
  ⟨frozen, (mean, std), []⟩

/-- `Distribution.copy` for a normal distribution: re-initialise from the
two parameters; `frozen` takes its constructor default `False`. -/
def NormalDistribution.copy (s : NormalDistribution) : NormalDistribution :=
  NormalDistribution.init s.parameters.1 s.parameters.2 false

/-- `NormalDistribution._log_probability(symbol, epsilon)`. -/
def NormalDistribution.log_probability (s : NormalDistribution)
    (symbol epsilon : ℝ) : FP :=
  if s.parameters.2 = 0 then
    (if |symbol - s.parameters.1| < epsilon then .fin 0 else .ninf)
  else
    FP.sub (uLog (1 / (s.parameters.2 * SQRT2PI)))
      (.fin ((symbol - s.parameters.1) ^ 2 / (2 * s.parameters.2 ^ 2)))

/-- `NormalDistribution.from_sample(items, weights=None, inertia=0.0,
min_std=0.01)`: weighted mean, weighted variance when more than one weight
is nonzero, the `min_std` floor, then the inertia blend. -/
def NormalDistribution.from_sample (s : NormalDistribution) (items : List ℝ)
    (weights : Option (List ℝ)) (inertia minStd : ℝ) : NormalDistribution :=
  if items.length = 0 ∨ s.frozen = true then s else
  let ws := weights.getD (items.map fun _ => (1 : ℝ))
  if ws.sum = 0 then s else
  let mean := wmean items ws
  let std :=
    if 1 < countNonzero ws then
      (if 0 ≤ wvar items ws then Real.sqrt (wvar items ws) else 0)
    else s.parameters.2
  let std := max std minStd
  { s with parameters := (s.parameters.1 * inertia + mean * (1 - inertia),
                          s.parameters.2 * inertia + std * (1 - inertia)) }

/-- `NormalDistribution.summarize(items, weights=None)`: append the batch
`[mean, variance, weight-sum]`.  The opening `numpy.sum(weights) == 0`
test only fires for a provided all-zero weight vector (for `None` the
comparison is with `None` and is false). -/
def NormalDistribution.summarize (s : NormalDistribution) (items : List ℝ)
    (weights : Option (List ℝ)) : NormalDistribution :=
  match weights with
  | some ws =>
      if ws.sum = 0 then s
      else { s with summaries := s.summaries ++ [(wmean items ws, wvar items ws, ws.sum)] }
  | none =>
      let ws := items.map fun _ => (1 : ℝ)
      { s with summaries := s.summaries ++ [(wmean items ws, wvar items ws, ws.sum)] }

/-- `NormalDistribution.from_summaries(inertia=0.0)`: parallel merge of the
batch statistics; note that, unlike `from_sample`, no `min_std` floor is
applied to the merged standard deviation. -/
def NormalDistribution.from_summaries (s : NormalDistribution) (inertia : ℝ) :
    NormalDistribution :=
  if s.summaries.length = 0 ∨ s.frozen = true then s else
  let W := (s.summaries.map fun t => t.2.2).sum
  let mean := (s.summaries.map fun t => t.1 * t.2.2).sum / W
  let variance := (s.summaries.map fun t => (t.2.1 + t.1 ^ 2) * t.2.2).sum / W - mean ^ 2
  let std := if 0 ≤ variance then Real.sqrt variance else 0
  { frozen := s.frozen,
    parameters := (s.parameters.1 * inertia + mean * (1 - inertia),
                   s.parameters.2 * inertia + std * (1 - inertia)),
    summaries := [] }

/-- `LogNormalDistribution._log_probability(symbol)`: the unguarded C
`log` is applied both to `symbol * sigma * SQRT_2_PI` and to `symbol`. -/
def LogNormalDistribution.log_probability (mu sigma symbol : ℝ) : FP :=
  FP.sub (FP.neg (clogR (symbol * sigma * SQRT2PI)))
    (FP.mul (.fin (1 / 2)) (FP.sq (FP.div (FP.sub (clogR symbol) (.fin mu)) (.fin sigma))))

/-- `ExtremeValueDistribution`: `parameters` is `[mu, sigma, epsilon]`. -/
structure ExtremeValueDistribution where
  frozen : Bool
  parameters : ℝ × ℝ × ℝ

/-- `ExtremeValueDistribution.__init__(mu, sigma, epsilon, frozen=True)`:
this constructor defaults `frozen` to `True`. -/
def ExtremeValueDistribution.init (mu sigma epsilon : ℝ) (frozen : Bool) :
    ExtremeValueDistribution :=
  ⟨frozen, (mu, sigma, epsilon)⟩

/-- `Distribution.copy` for an extreme value distribution: re-initialise
from the three parameters; `frozen` takes its constructor default,
which here is `True`. -/
def ExtremeValueDistribution.copy (s : ExtremeValueDistribution) : ExtremeValueDistribution :=
  ExtremeValueDistribution.init s.parameters.1 s.parameters.2.1 s.parameters.2.2 true

/-- `ExtremeValueDistribution._log_probability(symbol)`: generalized
extreme value log-density.  `mu`, `sigma`, `epsilon` are unpacked from
the Python parameter list into untyped locals, so the arithmetic is
Python float arithmetic: the division `(symbol - mu) / sigma` raises
`ZeroDivisionError` when `sigma == 0`; `clog`/`cexp` are the C functions
(the log of a negative argument is NaN, no exception); and `**` is
Python pow, which raises for a negative base and non-integral exponent
(an exception from it propagates regardless of the other, possibly NaN,
terms of the expression). -/
def ExtremeValueDistribution.log_probability (s : ExtremeValueDistribution)
    (symbol : ℝ) : Except PyErr FP :=
  let mu := s.parameters.1
  let sigma := s.parameters.2.1
  let epsilon := s.parameters.2.2
  if sigma = 0 then .error .zeroDivisionError else
  let t := (symbol - mu) / sigma
  if epsilon = 0 then
    .ok (FP.sub (FP.sub (FP.neg (clogR sigma)) (.fin t)) (cexpF (FP.neg (.fin t))))
  else do
    let p ← pyPowR (1 + epsilon * t) (-1 / epsilon)
    .ok (FP.sub
      (FP.add (FP.neg (clogR sigma))
        (FP.mul (clogR (1 + epsilon * t)) (.fin (-1 / epsilon - 1))))
      (.fin p))

/-- `ExponentialDistribution.log_probability(symbol)`:
`_log(rate) - rate * symbol`. -/
def ExponentialDistribution.log_probability (rate symbol : ℝ) : FP :=
  FP.sub (uLog rate) (.fin (rate * symbol))

/-- `DiscreteDistribution`: `parameters` is the single category→weight
dictionary (values are C doubles: fitting can produce NaN entries, see
`from_sample`), `summaries` the accumulator pair `[characters dict,
total weight]`. -/
structure DiscreteDistribution (α : Type) where
  frozen : Bool
  parameters : List (α × FP)
  summaries : List (α × ℝ) × ℝ

/-- `DiscreteDistribution.__init__(characters, frozen=False)`. -/
def DiscreteDistribution.init [DecidableEq α] (characters : List (α × ℝ)) (frozen : Bool) :
    DiscreteDistribution α :=
  ⟨frozen, characters.map fun p => (p.1, FP.fin p.2), ([], 0)⟩

/-- `Distribution.copy` for a discrete distribution: re-initialise from
the stored dictionary; `frozen` takes its constructor default `False`. -/
def DiscreteDistribution.copy (s : DiscreteDistribution α) : DiscreteDistribution α :=
  ⟨false, s.parameters, ([], 0)⟩

/-- `DiscreteDistribution.log_probability(symbol)`:
`_log(self.parameters[0].get(symbol, 0))`. -/
def DiscreteDistribution.log_probability [DecidableEq α] (s : DiscreteDistribution α)
    (symbol : α) : FP :=
  uLogF (dictGetF s.parameters symbol)

/-- `DiscreteDistribution.from_sample(items, weights=None, inertia=0.0)`.
Provided weights are normalised by `numpy.array(weights) /
numpy.sum(weights)`, with no guard against a zero sum: an all-zero weight
vector divides 0 by 0, giving NaN entries.  The prior parameters are then
merged in, scaled by the inertia. -/
def DiscreteDistribution.from_sample [DecidableEq α] (s : DiscreteDistribution α)
    (items : List α) (weights : Option (List ℝ)) (inertia : ℝ) : DiscreteDistribution α :=
  if items.length = 0 ∨ s.frozen = true then s else
  let n := items.length
  let ws : List FP := match weights with
    | none => items.map fun _ => FP.fin (1 / (n : ℝ))
    | some w => w.map fun wi => FP.div (.fin wi) (.fin w.sum)
  let characters := (List.zip items ws).foldl (fun acc p => dictAddF acc p.1 p.2) []
  let characters := characters.map fun p => (p.1, FP.mul p.2 (.fin (1 - inertia)))
  let characters :=
    s.parameters.foldl (fun acc p => dictAddF acc p.1 (FP.mul p.2 (.fin inertia))) characters
  { s with parameters := characters }

/-- `DiscreteDistribution.from_summaries(inertia=0.0)`.  The source's
guard reads `len(self.summaries) == 0`, but `summaries` is the
two-element `[characters, total_weight]` list, so that test never fires
and only the frozen test can stop the commit.  Dividing an accumulated
weight by a zero total is a Python float division and raises
`ZeroDivisionError`. -/
def DiscreteDistribution.from_summaries [DecidableEq α] (s : DiscreteDistribution α)
    (inertia : ℝ) : Except PyErr (DiscreteDistribution α) :=
  if s.frozen = true then .ok s else
  if s.summaries.1 ≠ [] ∧ s.summaries.2 = 0 then .error .zeroDivisionError else
  let characters : List (α × FP) :=
    s.summaries.1.map fun p => (p.1, FP.mul (.fin (p.2 / s.summaries.2)) (.fin (1 - inertia)))
  let characters :=
    if 0 < inertia then
      s.parameters.foldl (fun acc p => dictAddF acc p.1 (FP.mul p.2 (.fin inertia))) characters
    else characters
  .ok { s with parameters := characters, summaries := ([], 0) }

/-- `LambdaDistribution`: `parameters` holds the user's log-probability
function. -/
structure LambdaDistribution (α : Type) where
  frozen : Bool
  funct : α → FP

/-- `LambdaDistribution.__init__(lambda_funct, frozen=True)`: this
constructor defaults `frozen` to `True`. -/
def LambdaDistribution.init (f : α → FP) (frozen : Bool) : LambdaDistribution α :=
  ⟨frozen, f⟩

/-- `LambdaDistribution.log_probability(symbol)`: delegate to the stored
function. -/
def LambdaDistribution.log_probability (s : LambdaDistribution α) (symbol : α) : FP :=
  s.funct symbol

/-- `Distribution.from_sample`, inherited by `LambdaDistribution`: return
silently when frozen, otherwise raise `NotImplementedError`. -/
def LambdaDistribution.from_sample (s : LambdaDistribution α) (_items : List α)
    (_weights : Option (List ℝ)) : Except PyErr (LambdaDistribution α) :=
  if s.frozen = true then .ok s else .error .notImplementedError

/-- The truth value of a numpy weight array under `if weights:`:
ambiguous (a `ValueError`) for more than one element, elementwise truth
for one element, false for none. -/
def ndarrayTruthy : List ℝ → Except PyErr Bool
  | [] => .ok false
  | [w] => .ok (if w = 0 then false else true)
  | _ => .error .valueError

/-- `GaussianKernelDensity`: `parameters` is `[points, bandwidth,
weights]`. -/
structure GaussianKernelDensity where
  frozen : Bool
  points : List ℝ
  bandwidth : ℝ
  weights : List ℝ

/-- `GaussianKernelDensity.__init__(points, bandwidth=1, weights=None,
frozen=False)`: the weight check is written `if weights:`, which applies
numpy-array truthiness to a provided weight array. -/
def GaussianKernelDensity.init (points : List ℝ) (bandwidth : ℝ)
    (weights : Option (List ℝ)) (frozen : Bool) : Except PyErr GaussianKernelDensity :=
  let n := points.length
  match weights with
  | none => .ok ⟨frozen, points, bandwidth, points.map fun _ => 1 / (n : ℝ)⟩
  | some ws => do
      let t ← ndarrayTruthy ws
      if t then .ok ⟨frozen, points, bandwidth, ws.map fun w => w / ws.sum⟩
      else .ok ⟨frozen, points, bandwidth, points.map fun _ => 1 / (n : ℝ)⟩

/-- `Distribution.copy` for a kernel density: re-initialise from the
three stored parameters, so the stored weight array is passed back
through `__init__`. -/
def GaussianKernelDensity.copy (s : GaussianKernelDensity) :
    Except PyErr GaussianKernelDensity :=
  GaussianKernelDensity.init s.points s.bandwidth (some s.weights) false

/-- `GaussianKernelDensity._log_probability(symbol)`: the log of the
weighted sum of the per-point Gaussian kernels. -/
def GaussianKernelDensity.log_probability (s : GaussianKernelDensity) (symbol : ℝ) : FP :=
  uLog ((List.zipWith
    (fun mu w => 1 / SQRT2PI * Real.exp (-(1 / 2) * ((mu - symbol) / s.bandwidth) ^ 2) * w)
    s.points s.weights).sum)

/-- `MixtureDistribution`: `parameters` is `[distributions, weights]`;
the children are kept polymorphically as log-probability functions. -/
structure MixtureDistribution (α : Type) where
  frozen : Bool
  distributions : List (α → FP)
  weights : List ℝ

/-- `MixtureDistribution.__init__(distributions, weights=None,
frozen=False)`: the same `if weights:` numpy truthiness applies to a
provided weight array. -/
def MixtureDistribution.init (ds : List (α → FP)) (weights : Option (List ℝ))
    (frozen : Bool) : Except PyErr (MixtureDistribution α) :=
  let n := ds.length
  match weights with
  | none => .ok ⟨frozen, ds, ds.map fun _ => 1 / (n : ℝ)⟩
  | some ws => do
      let t ← ndarrayTruthy ws
      if t then .ok ⟨frozen, ds, ws.map fun w => w / ws.sum⟩
      else .ok ⟨frozen, ds, ds.map fun _ => 1 / (n : ℝ)⟩

/-- `MixtureDistribution.log_probability(symbol)`.  The source reads
`(d, w), n = self.parameters, len(self.parameters)`: `n` is the length of
the two-element parameter list `[distributions, weights]`, i.e. `2`,
regardless of how many children the mixture owns.  The sum therefore runs
over children `0` and `1` only; with fewer than two children the index
raises `IndexError`. -/
def MixtureDistribution.log_probability (s : MixtureDistribution α) (symbol : α) :
    Except PyErr FP :=
  if s.distributions.length < 2 ∨ s.weights.length < 2 then .error .indexError else
  .ok (uLogF (fpSum ((List.range 2).map fun i =>
    FP.mul (cexpF ((s.distributions.getD i fun _ => .fin 0) symbol))
      (.fin (s.weights.getD i 0)))))

/-- `MixtureDistribution.from_sample`: unconditionally
`raise NotImplementedError`, before any frozen test. -/
def MixtureDistribution.from_sample (_s : MixtureDistribution α) (_items : List α)
    (_weights : Option (List ℝ)) : Except PyErr (MixtureDistribution α) :=
  .error .notImplementedError

/-- A parameter-fitting call on a normal distribution: the arguments of
one `from_sample` or `from_summaries` invocation. -/
inductive NormalOp where
  | fromSample : List ℝ → Option (List ℝ) → ℝ → ℝ → NormalOp
  | fromSummaries : ℝ → NormalOp

def NormalDistribution.applyOp (s : NormalDistribution) : NormalOp → NormalDistribution
  | .fromSample items w inertia minStd => s.from_sample items w inertia minStd
  | .fromSummaries inertia => s.from_summaries inertia

def NormalDistribution.applyOps (s : NormalDistribution) (ops : List NormalOp) :
    NormalDistribution :=
  ops.foldl NormalDistribution.applyOp s

/-- A parameter-fitting call on a uniform distribution. -/
inductive UniformOp where
  | fromSample : List ℝ → Option (List ℝ) → ℝ → UniformOp
  | fromSummaries : ℝ → UniformOp

def UniformDistribution.applyOp (s : UniformDistribution) :
    UniformOp → Except PyErr UniformDistribution
  | .fromSample items w inertia => .ok (s.from_sample items w inertia)
  | .fromSummaries inertia => s.from_summaries inertia

def UniformDistribution.applyOps (s : UniformDistribution) (ops : List UniformOp) :
    Except PyErr UniformDistribution :=
  ops.foldlM UniformDistribution.applyOp s

/-- A parameter-fitting call on a discrete distribution. -/
inductive DiscreteOp (α : Type) where
  | fromSample : List α → Option (List ℝ) → ℝ → DiscreteOp α
  | fromSummaries : ℝ → DiscreteOp α

def DiscreteDistribution.applyOp [DecidableEq α] (s : DiscreteDistribution α) :
    DiscreteOp α → Except PyErr (DiscreteDistribution α)
  | .fromSample items w inertia => .ok (s.from_sample items w inertia)
  | .fromSummaries inertia => s.from_summaries inertia

def DiscreteDistribution.applyOps [DecidableEq α] (s : DiscreteDistribution α)
    (ops : List (DiscreteOp α)) : Except PyErr (DiscreteDistribution α) :=
  ops.foldlM DiscreteDistribution.applyOp s

lemma normal_applyOp_frozen (s : NormalDistribution) (h : s.frozen = true)
    (op : NormalOp) : s.applyOp op = s := by
  cases op with
  | fromSample items w inertia minStd =>
      simp [NormalDistribution.applyOp, NormalDistribution.from_sample, h]
  | fromSummaries inertia =>
      simp [NormalDistribution.applyOp, NormalDistribution.from_summaries, h]

lemma normal_applyOps_frozen (s : NormalDistribution) (h : s.frozen = true)
    (ops : List NormalOp) : s.applyOps ops = s := by
  induction ops with
  | nil => rfl
  | cons op ops ih =>
      show ((s.applyOp op).applyOps ops) = s
      rw [normal_applyOp_frozen s h op, ih]

lemma uniform_applyOp_frozen (s : UniformDistribution) (h : s.frozen = true)
    (op : UniformOp) : s.applyOp op = .ok s := by
  cases op with
  | fromSample items w inertia =>
      simp [UniformDistribution.applyOp, UniformDistribution.from_sample, h]
  | fromSummaries inertia =>
      simp [UniformDistribution.applyOp, UniformDistribution.from_summaries, h]

lemma uniform_applyOps_frozen (s : UniformDistribution) (h : s.frozen = true)
    (ops : List UniformOp) : s.applyOps ops = .ok s := by
  induction ops with
  | nil => rfl
  | cons op ops ih =>
      show (s.applyOp op >>= fun s => s.applyOps ops) = .ok s
      rw [uniform_applyOp_frozen s h op]
      simpa using ih

lemma discrete_applyOp_frozen [DecidableEq α] (s : DiscreteDistribution α)
    (h : s.frozen = true) (op : DiscreteOp α) : s.applyOp op = .ok s := by
  cases op with
  | fromSample items w inertia =>
      simp [DiscreteDistribution.applyOp, DiscreteDistribution.from_sample, h]
  | fromSummaries inertia =>
      simp [DiscreteDistribution.applyOp, DiscreteDistribution.from_summaries, h]

lemma discrete_applyOps_frozen [DecidableEq α] (s : DiscreteDistribution α)
    (h : s.frozen = true) (ops : List (DiscreteOp α)) : s.applyOps ops = .ok s := by
  induction ops with
  | nil => rfl
  | cons op ops ih =>
      show (s.applyOp op >>= fun s => s.applyOps ops) = .ok s
      rw [discrete_applyOp_frozen s h op]
      simpa using ih

/-- Claim C3: after `freeze()`, every subsequent sequence of `from_sample`
and `from_summaries` calls (with any items, weights and inertia
arguments) leaves `parameters` unchanged, until `thaw()` is called:
while `frozen` is set, any sequence of fitting operations on a normal,
uniform or discrete distribution leaves the state — in particular the
parameters — unchanged. -/
theorem frozen_fitting_is_noop :
    (∀ (s : NormalDistribution) (ops : List NormalOp), s.frozen = true →
      (s.applyOps ops).parameters = s.parameters) ∧
    (∀ (s : UniformDistribution) (ops : List UniformOp), s.frozen = true →
      s.applyOps ops = .ok s) ∧
    (∀ (α : Type) [DecidableEq α] (s : DiscreteDistribution α)
      (ops : List (DiscreteOp α)), s.frozen = true → s.applyOps ops = .ok s) := by
  refine ⟨fun s ops h => ?_, fun s ops h => uniform_applyOps_frozen s h ops,
    fun α _inst s ops h => discrete_applyOps_frozen s h ops⟩
  rw [normal_applyOps_frozen s h ops]

/-- Witness for claim C3: a concrete frozen normal distribution subjected
to a `from_sample` and a `from_summaries` call keeps its parameters. -/
theorem frozen_fitting_is_noop_witness :
    (NormalDistribution.applyOps ⟨true, (0, 1), []⟩
      [NormalOp.fromSample [1, 2] none 0 (1 / 100), NormalOp.fromSummaries 0]).parameters
      = ((0 : ℝ), (1 : ℝ)) :=
  frozen_fitting_is_noop.1 ⟨true, (0, 1), []⟩
    [NormalOp.fromSample [1, 2] none 0 (1 / 100), NormalOp.fromSummaries 0] rfl

/-- Counterexample to claim C5: a `LambdaDistribution` built with its
constructor defaults is frozen, so the inherited `from_sample` returns
silently instead of raising `NotImplementedError`. -/
theorem lambda_default_from_sample_does_not_raise :
    ¬ ((LambdaDistribution.init (fun _ : ℝ => FP.fin 0) true).from_sample [0] none
        = .error .notImplementedError) := by
  simp [LambdaDistribution.from_sample, LambdaDistribution.init]

/-- Claim C5 (amended): `MixtureDistribution.from_sample` raises
`NotImplementedError` unconditionally; `LambdaDistribution.from_sample`
raises `NotImplementedError` only when the instance is unfrozen — with
the constructor default `frozen=True` it silently returns with the state
unchanged. -/
theorem mixture_lambda_from_sample_behaviour :
    ∀ (m : MixtureDistribution ℝ) (items : List ℝ) (w : Option (List ℝ)) (f : ℝ → FP),
      m.from_sample items w = .error .notImplementedError ∧
      (LambdaDistribution.init f true).from_sample items w
        = .ok (LambdaDistribution.init f true) ∧
      (LambdaDistribution.init f false).from_sample items w
        = .error .notImplementedError := by
  intro m items w f
  refine ⟨rfl, ?_, ?_⟩ <;>
    simp [LambdaDistribution.from_sample, LambdaDistribution.init]

/-- Counterexample to claim C10: `ExtremeValueDistribution` is a scalar
parametric distribution whose constructor defaults `frozen` to `True`;
the copy of a frozen instance is therefore frozen again, not
unfrozen. -/
theorem extreme_value_copy_stays_frozen :
    ¬ (((ExtremeValueDistribution.init 0 1 0 true).copy).frozen = false) := by
  simp [ExtremeValueDistribution.copy, ExtremeValueDistribution.init]

/-- Claim C10 (amended): for the scalar parametric distributions whose
constructors default `frozen` to `False` (here uniform, normal and
discrete), `copy()` of a frozen instance yields an unfrozen copy; for
`ExtremeValueDistribution` (constructor default `frozen=True`) the copy
of a frozen instance stays frozen. -/
theorem copy_resets_frozen_flag :
    ∀ (a b m sd mu sg ep : ℝ) (chars : List (String × ℝ)),
      ((UniformDistribution.init a b true).copy).frozen = false ∧
      ((NormalDistribution.init m sd true).copy).frozen = false ∧
      ((DiscreteDistribution.init chars true).copy).frozen = false ∧
      ((ExtremeValueDistribution.init mu sg ep true).copy).frozen = true := by
  intro a b m sd mu sg ep chars
  exact ⟨rfl, rfl, rfl, rfl⟩

/-- Claim C4: `copy()` on a two-point Gaussian kernel density.  The
construction with default weights succeeds (uniform weights 1/2), but the
copy passes the stored weight array back through `__init__`, whose
`if weights:` test applies numpy truthiness to a two-element array and
raises `ValueError` — `copy()` does not succeed for every variant. -/
theorem kernel_density_copy_raises :
    GaussianKernelDensity.init [0, 1] 1 none false
      = .ok ⟨false, [0, 1], 1, [1 / 2, 1 / 2]⟩ ∧
    GaussianKernelDensity.copy ⟨false, [0, 1], 1, [1 / 2, 1 / 2]⟩ = .error .valueError := by
  constructor
  · simp [GaussianKernelDensity.init]
  · rfl

/-- Claim C7: `DiscreteDistribution.from_summaries()` with no accumulated
summaries is not a no-op: the ineffective `len(self.summaries) == 0`
guard lets the commit run on the empty accumulator, replacing the
parameters with the empty dictionary. -/
theorem discrete_from_summaries_wipes_parameters :
    (DiscreteDistribution.init [("A", (1 : ℝ) / 2), ("B", (1 : ℝ) / 2)] false).from_summaries 0
      = .ok ⟨false, [], ([], 0)⟩ ∧
    (DiscreteDistribution.init [("A", (1 : ℝ) / 2), ("B", (1 : ℝ) / 2)] false).parameters ≠ [] := by
  constructor
  · simp [DiscreteDistribution.init, DiscreteDistribution.from_summaries]
  · simp [DiscreteDistribution.init]

/-- Claim C8: `DiscreteDistribution.from_sample` with an all-zero weight
vector is not a no-op: the weights are normalised by their zero sum
(IEEE 0/0 = NaN), and the prior parameters `{A: 1/2, B: 1/2}` are
replaced by `{A: NaN, B: 0}`. -/
theorem discrete_from_sample_zero_weights_corrupts :
    (DiscreteDistribution.init [("A", (1 : ℝ) / 2), ("B", (1 : ℝ) / 2)] false).from_sample
        ["A"] (some [0]) 0
      = ⟨false, [("A", FP.nan), ("B", FP.fin 0)], ([], 0)⟩ ∧
    [("A", FP.nan), ("B", FP.fin 0)]
      ≠ (DiscreteDistribution.init [("A", (1 : ℝ) / 2), ("B", (1 : ℝ) / 2)] false).parameters := by
  constructor
  · simp [DiscreteDistribution.init, DiscreteDistribution.from_sample, dictAddF,
      FP.div, FP.mul, FP.add]
  · simp [DiscreteDistribution.init]

lemma uLog_not_nan (x : ℝ) : (uLog x).isNan = false := by
  unfold uLog
  split <;> rfl

lemma uLogF_not_nan (v : FP) : (uLogF v).isNan = false := by
  cases v with
  | fin x => exact uLog_not_nan x
  | pinf => rfl
  | ninf => rfl
  | nan => rfl

lemma sub_uLog_fin_not_nan (x y : ℝ) : ((uLog x).sub (.fin y)).isNan = false := by
  unfold uLog
  split <;> rfl

lemma pyPowR_neg_int (b e : ℝ) (hb : b < 0) (h : ∃ n : ℤ, (n : ℝ) = e) :
    ∃ y, pyPowR b e = .ok y := by
  unfold pyPowR
  rw [if_neg (not_lt.mpr hb.le), if_neg (ne_of_lt hb), dif_pos h]
  exact ⟨_, rfl⟩

lemma pyPowR_neg_nonint (b e : ℝ) (hb : b < 0) (h : ¬∃ n : ℤ, (n : ℝ) = e) :
    pyPowR b e = .error .valueError := by
  unfold pyPowR
  rw [if_neg (not_lt.mpr hb.le), if_neg (ne_of_lt hb), dif_neg h]

/-- Counterexample to claim C2: out-of-support queries on the densities
that bypass the guarded `_log`.  The log-normal at symbol `0`
(parameters `mu=0, sigma=1`) returns NaN.  The extreme value violates
both halves of the claim: at `mu=0, sigma=1, epsilon=1, symbol=-2`
(where `1 + epsilon*t = -1` and the exponent `-1/epsilon = -1` is
integral, so the Python `**` yields `-1.0`) the C log of `-1` makes the
result NaN; at `mu=0, sigma=1, epsilon=2, symbol=-1` (exponent `-1/2`
non-integral) the Python `**` of the negative base raises instead of
returning a value. -/
theorem lognormal_extreme_value_nan_or_raise :
    (LogNormalDistribution.log_probability 0 1 0).isNan = true ∧
    (ExtremeValueDistribution.init 0 1 1 true).log_probability (-2) = .ok FP.nan ∧
    (ExtremeValueDistribution.init 0 1 2 true).log_probability (-1)
      = .error .valueError := by
  refine ⟨?_, ?_, ?_⟩
  · norm_num [LogNormalDistribution.log_probability, clogR, FP.sub, FP.neg, FP.add,
      FP.mul, FP.div, FP.sq, FP.isNan]
  · obtain ⟨y, hy⟩ := pyPowR_neg_int (1 + 1 * ((-2 - 0) / 1)) (-1 / 1)
      (by norm_num) ⟨-1, by norm_num⟩
    simp only [ExtremeValueDistribution.init, ExtremeValueDistribution.log_probability]
    rw [if_neg one_ne_zero, if_neg one_ne_zero, hy]
    show Except.ok _ = _
    norm_num [clogR, FP.sub, FP.neg, FP.add, FP.mul]
  · have hnex : ¬∃ n : ℤ, (n : ℝ) = -1 / 2 := by
      rintro ⟨n, hn⟩
      have h2 : ((2 * n : ℤ) : ℝ) = -1 := by push_cast; linarith
      have h3 : (2 * n : ℤ) = -1 := by exact_mod_cast h2
      omega
    simp only [ExtremeValueDistribution.init, ExtremeValueDistribution.log_probability]
    rw [if_neg one_ne_zero, if_neg (two_ne_zero (α := ℝ))]
    rw [pyPowR_neg_nonint (1 + 2 * ((-1 - 0) / 1)) (-1 / 2) (by norm_num) hnex]
    rfl

/-- Claim C2 (amended): the distributions whose log-probability goes
through the guarded `_log` helper — uniform, normal, exponential,
discrete and the Gaussian kernel density — never return NaN from
`log_probability`, for any parameters and any symbol;
`LogNormalDistribution` and `ExtremeValueDistribution` bypass the guard
and are excluded (see the counterexample: the former returns NaN, the
latter returns NaN or raises, depending on whether `-1/epsilon` is
integral). -/
theorem log_probability_never_nan :
    ∀ (u : UniformDistribution) (nd : NormalDistribution) (d : DiscreteDistribution String)
      (kd : GaussianKernelDensity) (rate x eps : ℝ) (sym : String),
      (u.log_probability x).isNan = false ∧
      (nd.log_probability x eps).isNan = false ∧
      (ExponentialDistribution.log_probability rate x).isNan = false ∧
      (d.log_probability sym).isNan = false ∧
      (kd.log_probability x).isNan = false := by
  intro u nd d kd rate x eps sym
  refine ⟨?_, ?_, ?_, ?_, uLog_not_nan _⟩
  · unfold UniformDistribution.log_probability
    split
    · rfl
    split
    · exact uLog_not_nan _
    · rfl
  · unfold NormalDistribution.log_probability
    split
    · split <;> rfl
    · exact sub_uLog_fin_not_nan _ _
  · exact sub_uLog_fin_not_nan _ _
  · exact uLogF_not_nan _

/-- Claim C9: a mixture of three identical point-mass distributions on
`"A"` (default uniform weights 1/3).  The claimed value is the log of the
full weighted sum, `log(3 * (1/3 * 1)) = log 1 = 0`; the source sets
`n = len(self.parameters) = 2` and sums only the first two children, so
`log_probability("A")` returns `log(2/3) ≠ 0`. -/
theorem mixture_sums_only_two_children :
    ((MixtureDistribution.init
        [fun sym => (DiscreteDistribution.init [("A", (1 : ℝ))] false).log_probability sym,
         fun sym => (DiscreteDistribution.init [("A", (1 : ℝ))] false).log_probability sym,
         fun sym => (DiscreteDistribution.init [("A", (1 : ℝ))] false).log_probability sym]
        none false).bind fun m => m.log_probability "A")
      = .ok (.fin (Real.log (2 / 3))) ∧
    Real.log ((2 : ℝ) / 3) ≠ Real.log 1 := by
  constructor
  · simp [MixtureDistribution.init, MixtureDistribution.log_probability,
      DiscreteDistribution.init, DiscreteDistribution.log_probability, dictGetF,
      uLogF, uLog, fpSum, cexpF, FP.mul, FP.add, List.range_succ, Real.exp_log,
      Except.bind, List.getD]
    norm_num
  · have h := Real.log_neg (by norm_num : (0 : ℝ) < 2 / 3) (by norm_num : (2 : ℝ) / 3 < 1)
    simp only [Real.log_one]
    exact ne_of_lt h

lemma sum_pos_of_countNonzero (ws : List ℝ) (hnn : ∀ w ∈ ws, 0 ≤ w)
    (h : 0 < countNonzero ws) : 0 < ws.sum := by
  induction ws with
  | nil => simp [countNonzero] at h
  | cons w ws ih =>
      have hw : 0 ≤ w := hnn w (List.mem_cons_self w ws)
      have hws : ∀ v ∈ ws, 0 ≤ v := fun v hv => hnn v (List.mem_cons_of_mem w hv)
      rw [List.sum_cons]
      by_cases hz : w = 0
      · subst hz
        simp only [countNonzero, List.map_cons, List.sum_cons, if_pos rfl] at h
        have := ih hws (by simpa [countNonzero] using h)
        linarith
      · have hpos : 0 < w := lt_of_le_of_ne hw (Ne.symm hz)
        have : 0 ≤ ws.sum := List.sum_nonneg hws
        linarith

lemma countNonzero_ne_nil (ws : List ℝ) (h : 0 < countNonzero ws) : ws ≠ [] := by
  intro hnil
  subst hnil
  simp [countNonzero] at h

/-- Claim C6 (amended, positive part): `NormalDistribution.from_sample`
with inertia 0 and more than one nonzero (non-negative) weight always
yields a standard deviation at least the `min_std` floor `0.01`. -/
theorem normal_from_sample_std_floor (s : NormalDistribution) (items ws : List ℝ)
    (hf : s.frozen = false) (hlen : items.length = ws.length)
    (hnn : ∀ w ∈ ws, 0 ≤ w) (hcnt : 1 < countNonzero ws) :
    (0.01 : ℝ) ≤ (s.from_sample items (some ws) 0 0.01).parameters.2 := by
  have hsum : 0 < ws.sum := sum_pos_of_countNonzero ws hnn (by omega)
  have hlen0 : ¬ (items.length = 0 ∨ s.frozen = true) := by
    have hne := countNonzero_ne_nil ws (by omega)
    rw [hf]
    simp only [Bool.false_eq_true, or_false]
    intro h0
    exact hne (List.eq_nil_of_length_eq_zero (hlen ▸ h0))
  unfold NormalDistribution.from_sample
  rw [if_neg hlen0]
  simp only [Option.getD_some]
  rw [if_neg (ne_of_gt hsum)]
  simp only [mul_zero, sub_zero, mul_one, zero_add]
  exact le_max_right _ _

/-- Witness for claim C6: the floor holds on the concrete fit of `[1, 2]`
with weights `[1, 1]`. -/
theorem normal_from_sample_std_floor_witness :
    (0.01 : ℝ) ≤ ((⟨false, (0, 1), []⟩ : NormalDistribution).from_sample
        [1, 2] (some [1, 1]) 0 0.01).parameters.2 :=
  normal_from_sample_std_floor ⟨false, (0, 1), []⟩ [1, 2] [1, 1] rfl rfl
    (by intro w hw; fin_cases hw <;> norm_num)
    (by norm_num [countNonzero])

/-- Counterexample to claim C6: the summarize-then-`from_summaries` path
applies no `min_std` floor.  Summarising the two unit-weight items
`[5, 5]` and committing with inertia 0 sets the standard deviation to 0,
below the floor `0.01`. -/
theorem normal_from_summaries_ignores_floor :
    (((NormalDistribution.init 0 1 false).summarize [5, 5] none).from_summaries 0).parameters.2
      = 0 ∧ (0 : ℝ) < 0.01 := by
  constructor
  · norm_num [NormalDistribution.init, NormalDistribution.summarize,
      NormalDistribution.from_summaries, wmean, wvar, dot, Real.sqrt_zero]
  · norm_num

/-- Counterexample to claim C1: on the dataset `[5, 5]` (one batch, unit
weights, inertia 0), `from_sample` floors the standard deviation at
`min_std = 0.01` while `summarize`-then-`from_summaries` does not: the
final parameters are `(5, 0.01)` versus `(5, 0)`, far beyond the 1e-9
tolerance. -/
theorem normal_roundtrip_counterexample :
    ((NormalDistribution.init 0 1 false).from_sample [5, 5] none 0 0.01).parameters
      = (5, 0.01) ∧
    (((NormalDistribution.init 0 1 false).summarize [5, 5] none).from_summaries 0).parameters
      = (5, 0) ∧
    (1 / 1000000000 : ℝ) < |(0.01 : ℝ) - 0| := by
  refine ⟨?_, ?_, by rw [sub_zero, abs_of_pos (by norm_num : (0 : ℝ) < 0.01)]; norm_num⟩
  · norm_num [NormalDistribution.init, NormalDistribution.from_sample, countNonzero,
      wmean, wvar, dot, Real.sqrt_zero]
  · norm_num [NormalDistribution.init, NormalDistribution.summarize,
      NormalDistribution.from_summaries, wmean, wvar, dot, Real.sqrt_zero]

lemma dot_append (a b c d : List ℝ) (h : a.length = c.length) :
    dot (a ++ b) (c ++ d) = dot a c + dot b d := by
  unfold dot
  rw [List.zipWith_append _ _ _ _ _ h, List.sum_append]

lemma dot_flatten_map (f : ℝ → ℝ) (l : List (List ℝ × List ℝ))
    (hlen : ∀ b ∈ l, b.1.length = b.2.length) :
    dot (((l.map Prod.fst).flatten).map f) ((l.map Prod.snd).flatten)
      = (l.map fun b => dot (b.1.map f) b.2).sum := by
  induction l with
  | nil => simp [dot]
  | cons b l ih =>
      simp only [List.map_cons, List.flatten_cons, List.map_append, List.sum_cons]
      rw [dot_append _ _ _ _ (by simp [hlen b (List.mem_cons_self b l)]),
        ih fun x hx => hlen x (List.mem_cons_of_mem b hx)]

lemma dot_flatten (l : List (List ℝ × List ℝ))
    (hlen : ∀ b ∈ l, b.1.length = b.2.length) :
    dot ((l.map Prod.fst).flatten) ((l.map Prod.snd).flatten)
      = (l.map fun b => dot b.1 b.2).sum := by
  simpa using dot_flatten_map id l hlen

lemma flatten_snd_sum (l : List (List ℝ × List ℝ)) :
    ((l.map Prod.snd).flatten).sum = (l.map fun b => b.2.sum).sum := by
  simp [List.sum_flatten, List.map_map, Function.comp_def]

lemma flatten_length_eq (l : List (List ℝ × List ℝ))
    (hlen : ∀ b ∈ l, b.1.length = b.2.length) :
    ((l.map Prod.fst).flatten).length = ((l.map Prod.snd).flatten).length := by
  induction l with
  | nil => rfl
  | cons b l ih =>
      simp only [List.map_cons, List.flatten_cons, List.length_append]
      rw [hlen b (List.mem_cons_self b l), ih fun x hx => hlen x (List.mem_cons_of_mem b hx)]

lemma dot_sq_sub (xs ws : List ℝ) (c : ℝ) (h : xs.length = ws.length) :
    dot (xs.map fun x => x ^ 2 - c) ws = dot (xs.map fun x => x ^ 2) ws - c * ws.sum := by
  induction xs generalizing ws with
  | nil =>
      cases ws with
      | nil => simp [dot]
      | cons w ws => simp at h
  | cons x xs ih =>
      cases ws with
      | nil => simp at h
      | cons w ws =>
          have h' : xs.length = ws.length := by simpa using h
          simp only [List.map_cons, dot, List.zipWith_cons_cons, List.sum_cons]
          have hx := ih ws h'
          simp only [dot] at hx
          rw [hx]
          ring

lemma wmean_mul (xs ws : List ℝ) (h : ws.sum ≠ 0) :
    wmean xs ws * ws.sum = dot xs ws :=
  div_mul_cancel₀ _ h

lemma wvar_formula (xs ws : List ℝ) (hlen : xs.length = ws.length) (h : ws.sum ≠ 0) :
    wvar xs ws = dot (xs.map fun x => x ^ 2) ws / ws.sum - wmean xs ws ^ 2 := by
  unfold wvar
  rw [dot_sq_sub xs ws _ hlen]
  field_simp
  ring

lemma wvar_mul (xs ws : List ℝ) (hlen : xs.length = ws.length) (h : ws.sum ≠ 0) :
    (wvar xs ws + wmean xs ws ^ 2) * ws.sum = dot (xs.map fun x => x ^ 2) ws := by
  rw [wvar_formula xs ws hlen h]
  field_simp
  ring

lemma normal_summarize_some (s : NormalDistribution) (xs ws : List ℝ) (h : ws.sum ≠ 0) :
    s.summarize xs (some ws)
      = { s with summaries := s.summaries ++ [(wmean xs ws, wvar xs ws, ws.sum)] } := by
  unfold NormalDistribution.summarize
  exact if_neg h

lemma normal_summarize_foldl (s : NormalDistribution) (l : List (List ℝ × List ℝ))
    (hw : ∀ b ∈ l, b.2.sum ≠ 0) :
    l.foldl (fun s b => s.summarize b.1 (some b.2)) s
      = { s with summaries :=
            s.summaries ++ l.map fun b => (wmean b.1 b.2, wvar b.1 b.2, b.2.sum) } := by
  induction l generalizing s with
  | nil => simp
  | cons b l ih =>
      rw [List.foldl_cons, normal_summarize_some s b.1 b.2 (hw b (List.mem_cons_self b l)),
        ih _ fun x hx => hw x (List.mem_cons_of_mem b hx)]
      simp

lemma normal_from_sample_params_eval (m0 sd0 minStd : ℝ) (xs ws : List ℝ)
    (hlen : xs.length = ws.length) (hsum : ws.sum ≠ 0) (hcnt : 1 < countNonzero ws)
    (hv : 0 ≤ wvar xs ws) :
    ((NormalDistribution.init m0 sd0 false).from_sample xs (some ws) 0 minStd).parameters
      = (wmean xs ws, max (Real.sqrt (wvar xs ws)) minStd) := by
  have hne : ws ≠ [] := fun h => hsum (by simp [h])
  have hx : ¬(xs.length = 0 ∨ (NormalDistribution.init m0 sd0 false).frozen = true) := by
    simp only [NormalDistribution.init, Bool.false_eq_true, or_false]
    intro h0
    exact hne (List.eq_nil_of_length_eq_zero (hlen ▸ h0))
  unfold NormalDistribution.from_sample
  rw [if_neg hx]
  simp only [Option.getD_some]
  rw [if_neg hsum, if_pos hcnt, if_pos hv]
  simp [NormalDistribution.init]

lemma normal_from_summaries_params_eval (m0 sd0 : ℝ) (sums : List (ℝ × ℝ × ℝ))
    (hne : sums ≠ [])
    (hv : 0 ≤ (sums.map fun t => (t.2.1 + t.1 ^ 2) * t.2.2).sum
        / (sums.map fun t => t.2.2).sum
        - ((sums.map fun t => t.1 * t.2.2).sum / (sums.map fun t => t.2.2).sum) ^ 2) :
    ((⟨false, (m0, sd0), sums⟩ : NormalDistribution).from_summaries 0).parameters
      = ((sums.map fun t => t.1 * t.2.2).sum / (sums.map fun t => t.2.2).sum,
         Real.sqrt ((sums.map fun t => (t.2.1 + t.1 ^ 2) * t.2.2).sum
            / (sums.map fun t => t.2.2).sum
            - ((sums.map fun t => t.1 * t.2.2).sum / (sums.map fun t => t.2.2).sum) ^ 2)) := by
  have hg : ¬((⟨false, (m0, sd0), sums⟩ : NormalDistribution).summaries.length = 0
      ∨ (⟨false, (m0, sd0), sums⟩ : NormalDistribution).frozen = true) := by
    simp only [Bool.false_eq_true, or_false]
    intro h0
    exact hne (List.eq_nil_of_length_eq_zero h0)
  unfold NormalDistribution.from_summaries
  rw [if_neg hg]
  dsimp only
  rw [if_pos hv]
  simp

/-- Claim C1 (amended): for a normal distribution, summarising any batch
split of a dataset and committing with `from_summaries()` produces the
same final parameters as a single `from_sample` on the concatenation
(inertia 0) — provided the pooled variance is at least
`min_std² = 0.01²` and more than one weight is nonzero.  (When the pooled
variance falls below the floor the two paths differ: `from_sample` floors
the standard deviation at `min_std = 0.01` while `from_summaries` applies
no floor; see the counterexample.) -/
theorem normal_batch_roundtrip
    (m0 sd0 : ℝ) (batches : List (List ℝ × List ℝ))
    (hne : batches ≠ [])
    (hlen : ∀ b ∈ batches, b.1.length = b.2.length)
    (hw : ∀ b ∈ batches, 0 < b.2.sum)
    (hcnt : 1 < countNonzero ((batches.map Prod.snd).flatten))
    (hvar : (0.01 : ℝ) ^ 2
      ≤ wvar ((batches.map Prod.fst).flatten) ((batches.map Prod.snd).flatten)) :
    ((NormalDistribution.init m0 sd0 false).from_sample
        ((batches.map Prod.fst).flatten) (some ((batches.map Prod.snd).flatten)) 0 0.01).parameters
      = ((batches.foldl (fun s b => s.summarize b.1 (some b.2))
            (NormalDistribution.init m0 sd0 false)).from_summaries 0).parameters := by
  have hxw : ((batches.map Prod.fst).flatten).length = ((batches.map Prod.snd).flatten).length :=
    flatten_length_eq batches hlen
  have hS : 0 < ((batches.map Prod.snd).flatten).sum := by
    rw [flatten_snd_sum]
    refine List.sum_pos _ (fun x hx => ?_) (by simpa using hne)
    obtain ⟨b, hb, rfl⟩ := List.mem_map.mp hx
    exact hw b hb
  have hSne : ((batches.map Prod.snd).flatten).sum ≠ 0 := ne_of_gt hS
  have hv0 : 0 ≤ wvar ((batches.map Prod.fst).flatten) ((batches.map Prod.snd).flatten) :=
    le_trans (by norm_num) hvar
  have hwne : ∀ b ∈ batches, b.2.sum ≠ 0 := fun b hb => ne_of_gt (hw b hb)
  rw [normal_from_sample_params_eval m0 sd0 0.01 _ _ hxw hSne hcnt hv0,
    normal_summarize_foldl _ _ hwne]
  have hrhs : ({ NormalDistribution.init m0 sd0 false with
      summaries := (NormalDistribution.init m0 sd0 false).summaries
        ++ batches.map fun b => (wmean b.1 b.2, wvar b.1 b.2, b.2.sum) } : NormalDistribution)
      = ⟨false, (m0, sd0), batches.map fun b => (wmean b.1 b.2, wvar b.1 b.2, b.2.sum)⟩ := rfl
  rw [hrhs]
  have e1 : (((batches.map fun b => (wmean b.1 b.2, wvar b.1 b.2, b.2.sum)).map
      fun t => t.2.2).sum) = ((batches.map Prod.snd).flatten).sum := by
    rw [List.map_map, flatten_snd_sum]
    rfl
  have e2 : (((batches.map fun b => (wmean b.1 b.2, wvar b.1 b.2, b.2.sum)).map
      fun t => t.1 * t.2.2).sum)
      = dot ((batches.map Prod.fst).flatten) ((batches.map Prod.snd).flatten) := by
    rw [List.map_map]
    have hcg : batches.map ((fun (t : ℝ × ℝ × ℝ) => t.1 * t.2.2)
          ∘ fun b => (wmean b.1 b.2, wvar b.1 b.2, b.2.sum))
        = batches.map fun b => dot b.1 b.2 :=
      List.map_congr_left fun b hb => wmean_mul b.1 b.2 (hwne b hb)
    rw [hcg, ← dot_flatten batches hlen]
  have e3 : (((batches.map fun b => (wmean b.1 b.2, wvar b.1 b.2, b.2.sum)).map
      fun t => (t.2.1 + t.1 ^ 2) * t.2.2).sum)
      = dot (((batches.map Prod.fst).flatten).map fun x => x ^ 2)
          ((batches.map Prod.snd).flatten) := by
    rw [List.map_map]
    have hcg : batches.map ((fun (t : ℝ × ℝ × ℝ) => (t.2.1 + t.1 ^ 2) * t.2.2)
          ∘ fun b => (wmean b.1 b.2, wvar b.1 b.2, b.2.sum))
        = batches.map fun b => dot (b.1.map fun x => x ^ 2) b.2 :=
      List.map_congr_left fun b hb => wvar_mul b.1 b.2 (hlen b hb) (hwne b hb)
    rw [hcg, ← dot_flatten_map (fun x => x ^ 2) batches hlen]
  have hVr : ((batches.map fun b => (wmean b.1 b.2, wvar b.1 b.2, b.2.sum)).map
        fun t => (t.2.1 + t.1 ^ 2) * t.2.2).sum
        / ((batches.map fun b => (wmean b.1 b.2, wvar b.1 b.2, b.2.sum)).map
            fun t => t.2.2).sum
      - (((batches.map fun b => (wmean b.1 b.2, wvar b.1 b.2, b.2.sum)).map
            fun t => t.1 * t.2.2).sum
          / ((batches.map fun b => (wmean b.1 b.2, wvar b.1 b.2, b.2.sum)).map
              fun t => t.2.2).sum) ^ 2
      = wvar ((batches.map Prod.fst).flatten) ((batches.map Prod.snd).flatten) := by
    rw [e1, e2, e3, wvar_formula _ _ hxw hSne]
    rfl
  rw [normal_from_summaries_params_eval m0 sd0 _ (by simpa using hne) (hVr ▸ hv0), hVr]
  have hMr : ((batches.map fun b => (wmean b.1 b.2, wvar b.1 b.2, b.2.sum)).map
        fun t => t.1 * t.2.2).sum
        / ((batches.map fun b => (wmean b.1 b.2, wvar b.1 b.2, b.2.sum)).map
            fun t => t.2.2).sum
      = wmean ((batches.map Prod.fst).flatten) ((batches.map Prod.snd).flatten) := by
    rw [e1, e2]
    rfl
  rw [hMr]
  have hfloor : (0.01 : ℝ)
      ≤ Real.sqrt (wvar ((batches.map Prod.fst).flatten) ((batches.map Prod.snd).flatten)) := by
    have h1 : (0.01 : ℝ) = Real.sqrt ((0.01 : ℝ) ^ 2) :=
      (Real.sqrt_sq (by norm_num : (0 : ℝ) ≤ 0.01)).symm
    rw [h1]
    exact Real.sqrt_le_sqrt hvar
  rw [max_eq_left hfloor]

/-- Witness for claim C1: the dataset `[0, 2]` with unit weights, split
into two singleton batches, commits to exactly the parameters of the
direct fit. -/
theorem normal_batch_roundtrip_witness :
    ((NormalDistribution.init 0 1 false).from_sample
        (([([0], [1]), ([2], [1])].map Prod.fst).flatten)
        (some (([([0], [1]), ([2], [1])].map Prod.snd).flatten)) 0 0.01).parameters
      = (([([0], [1]), ([2], [1])].foldl (fun s b => s.summarize b.1 (some b.2))
            (NormalDistribution.init 0 1 false)).from_summaries 0).parameters :=
  normal_batch_roundtrip 0 1 [([0], [1]), ([2], [1])]
    (by simp)
    (by intro b hb; fin_cases hb <;> rfl)
    (by intro b hb; fin_cases hb <;> norm_num)
    (by norm_num [countNonzero])
    (by norm_num [wvar, wmean, dot])

end
